import Mathlib

/-!
Verification development for the kosher environment manager.

The definitions below are a shallow embedding of the Python sources
(src/kosher_cli/ctr/container.py, node.py, ruby.py, and the older
src/ctr tree). File systems are modelled as association lists from file
names to byte-chunk lists, the Docker engine as a cache of image tags
plus a list of running containers, and each manager method as a pure
function from a world state to a result, a new world state, and the
trace of engine calls it issued.
-/

set_option autoImplicit false

namespace Kosher

/-! ## Python string primitives -/

/-- Python `s.split(c)` at the character-list level: splits at every
occurrence of `c`, keeping empty segments, and returns `[[]]` on the
empty string — exactly the CPython semantics of `str.split` with an
explicit one-character separator. -/
def splitChar (c : Char) : List Char → List (List Char)
  | [] => [[]]
  | a :: rest =>
      let r := splitChar c rest
      if a = c then [] :: r else (a :: r.headD []) :: r.tail

/-- Python `c.join(parts)` at the character-list level. -/
def joinChar (c : Char) : List (List Char) → List Char
  | [] => []
  | [x] => x
  | x :: y :: t => x ++ c :: joinChar c (y :: t)

/-- Python `s.split(c)` on strings. -/
def pySplit (s : String) (c : Char) : List String :=
  (splitChar c s.data).map String.mk

/-- Python `c.join(xs)` on strings. -/
def pyJoin (c : Char) (xs : List String) : String :=
  String.mk (joinChar c (xs.map String.data))

theorem splitChar_ne_nil (c : Char) (l : List Char) : splitChar c l ≠ [] := by
  cases l with
  | nil => simp [splitChar]
  | cons a rest =>
      simp only [splitChar]
      by_cases hac : a = c <;> simp [hac]

theorem splitChar_append_cons (c : Char) (xs ys : List Char) :
    splitChar c (xs ++ c :: ys) = splitChar c xs ++ splitChar c ys := by
  induction xs with
  | nil => simp [splitChar]
  | cons a xs ih =>
      cases hx : splitChar c xs with
      | nil => exact absurd hx (splitChar_ne_nil c xs)
      | cons x t =>
          have ih2 : splitChar c (xs ++ c :: ys) = x :: (t ++ splitChar c ys) := by
            rw [ih, hx]; rfl
          simp only [List.cons_append, splitChar, ih2, hx]
          by_cases hac : a = c <;> simp [hac, ih2]

theorem splitChar_of_not_mem {c : Char} {l : List Char} (h : c ∉ l) :
    splitChar c l = [l] := by
  induction l with
  | nil => rfl
  | cons a rest ih =>
      simp only [List.mem_cons, not_or] at h
      simp only [splitChar, ih h.2]
      have hac : a ≠ c := fun hca => h.1 hca.symm
      simp [hac]

theorem joinChar_splitChar (c : Char) (l : List Char) :
    joinChar c (splitChar c l) = l := by
  induction l with
  | nil => rfl
  | cons a rest ih =>
      cases hx : splitChar c rest with
      | nil => exact absurd hx (splitChar_ne_nil c rest)
      | cons h t =>
          rw [hx] at ih
          simp only [splitChar, hx]
          by_cases hac : a = c
          · subst hac
            simp only [if_pos rfl]
            cases t with
            | nil => simpa [joinChar] using congrArg (a :: ·) ih
            | cons y ts => simpa [joinChar] using congrArg (a :: ·) ih
          · simp only [if_neg hac, List.headD_cons, List.tail_cons]
            cases t with
            | nil =>
                simp only [joinChar] at ih ⊢
                rw [← ih]
            | cons y ts =>
                simp only [joinChar] at ih ⊢
                rw [List.cons_append, ← ih]

/-! ## Identity formatting (EnvironmentManager, kosher_cli/ctr/container.py) -/

/-- Image tag in the engine namespace, from the f-string
`f"{self.image_prefix}/{self._lang}-{name}:{version}"` with the constant
`"kosher"` assigned in `__init__`. -/
def imageTag (lang name version : String) : String :=
  "kosher/" ++ lang ++ "-" ++ name ++ ":" ++ version

/-- Archive file name, from `_get_image_path` (container.py:28-30):
`f"{self._lang}-{name}-{version}.tar"` inside the base directory. -/
def archiveName (lang name version : String) : String :=
  lang ++ "-" ++ name ++ "-" ++ version ++ ".tar"

/-- Transient build manifest file name, from
`Path(f"{self._lang}-{name}.Dockerfile")` (node.py:33). -/
def dockerfileName (lang name : String) : String :=
  lang ++ "-" ++ name ++ ".Dockerfile"

/-- The characters of the `".tar"` extension. -/
def tarExt : List Char := ['.', 't', 'a', 'r']

/-- Python `Path(fileName).stem` for the `*.tar` file names this system
globs: strips the four characters of the `".tar"` suffix. (The one file
name where `Path.stem` differs, the bare `".tar"`, is skipped by the
parsing length check either way.) -/
def tarStem (fileName : String) : String :=
  String.mk (fileName.data.take (fileName.data.length - 4))

/-- Glob test for `f"{lang}-{name}-*.tar"` applied to one file name:
the prefix `lang ++ "-" ++ name ++ "-"`, then any possibly empty
character sequence, then `".tar"`. -/
def globTar (lang name fileName : String) : Bool :=
  let pre := (lang ++ "-" ++ name ++ "-").data
  pre.isPrefixOf fileName.data && tarExt.isSuffixOf (fileName.data.drop pre.length)

/-- Glob test for `"*.tar"` applied to one file name. -/
def globAnyTar (fileName : String) : Bool :=
  tarExt.isSuffixOf fileName.data

theorem strData_append (a b : String) : (a ++ b).data = a.data ++ b.data := rfl

theorem strMk_data (s : String) : String.mk s.data = s := rfl

theorem archive_decomp (lang name v : String) :
    (lang ++ "-" ++ name ++ "-" ++ v ++ ".tar").data
      = (lang ++ "-" ++ name ++ "-").data ++ (v.data ++ tarExt) := by
  simp only [strData_append, List.append_assoc]
  rfl

/-- The glob test holds exactly when the file name decomposes as
`lang-name-v.tar` for some string `v`. -/
theorem globTar_iff (lang name fileName : String) :
    globTar lang name fileName = true ↔
      ∃ v : String, fileName = lang ++ "-" ++ name ++ "-" ++ v ++ ".tar" := by
  simp only [globTar, Bool.and_eq_true, List.isPrefixOf_iff_prefix,
    List.isSuffixOf_iff_suffix]
  constructor
  · rintro ⟨⟨rest, hrest⟩, ⟨mid, hmid⟩⟩
    have hdrop : (fileName.data).drop (lang ++ "-" ++ name ++ "-").data.length = rest := by
      rw [← hrest, List.drop_left]
    rw [hdrop] at hmid
    refine ⟨String.mk mid, String.ext ?_⟩
    rw [archive_decomp]
    show fileName.data = (lang ++ "-" ++ name ++ "-").data ++ (mid ++ tarExt)
    rw [← hrest, ← hmid]
  · rintro ⟨v, hv⟩
    subst hv
    constructor
    · exact ⟨v.data ++ tarExt, (archive_decomp lang name v).symm⟩
    · have hd : ((lang ++ "-" ++ name ++ "-" ++ v ++ ".tar").data).drop
          (lang ++ "-" ++ name ++ "-").data.length = v.data ++ tarExt := by
        rw [archive_decomp, List.drop_left]
      exact ⟨v.data, by rw [hd]⟩

/-! ## Archive file-name parsing (list_environments, container.py:154-178) -/

/-- The parsing rule of `list_environments` applied to one file stem:
`parts = file_name.split('-')`; when `len(parts) >= 3` the language is
`parts[0]`, the version is `parts[-1]`, and the name is
`'-'.join(parts[1:-1])`; shorter stems are skipped (`none`). -/
def parseStem (stem : String) : Option (String × String × String) :=
  let parts := pySplit stem '-'
  if parts.length ≥ 3 then
    some (parts.headD "", pyJoin '-' ((parts.drop 1).dropLast), parts.getLastD "")
  else none

/-- EnvironmentManager.list_environments (container.py:154-178): glob
`"*.tar"`, parse each stem, keep entries with at least three segments,
and filter on the optional language argument. -/
def listEnvironments (files : List String) (lang : Option String) :
    List (String × String × String) :=
  (files.filter globAnyTar).filterMap (fun f =>
    match parseStem (tarStem f) with
    | some (l, n, v) =>
        if lang = none ∨ lang = some l then some (l, n, v) else none
    | none => none)

/-! ## File-system and engine state -/

/-- Contents of the archive directory: file name to list of byte chunks.
A real directory holds at most one file per name; theorems that need
this carry a `Nodup` hypothesis on the keys. -/
abbrev ArchiveDir := List (String × List Nat)

def fsFind (fs : ArchiveDir) (k : String) : Option (List Nat) :=
  match fs.find? (fun p => p.1 == k) with
  | some p => some p.2
  | none => none

/-- Writing a file: `open(path, 'wb')` truncates an existing file of the
same name or creates a new one; the entry ends up holding exactly the
written chunks. (A real directory has at most one entry per name; this
replaces the first one.) -/
def fsWrite : ArchiveDir → String → List Nat → ArchiveDir
  | [], k, v => [(k, v)]
  | p :: fs, k, v => if p.1 = k then (k, v) :: fs else p :: fsWrite fs k v

/-- Deleting a file by name (`Path.unlink`). -/
def fsErase (fs : ArchiveDir) (k : String) : ArchiveDir :=
  fs.filter (fun p => p.1 ≠ k)

/-- Presence-only directory update for the build-context directory:
`write_text` creates the file if absent. -/
def insertName (l : List String) (k : String) : List String :=
  if k ∈ l then l else l ++ [k]

/-- Presence-only file deletion (`unlink(missing_ok=True)`). -/
def removeName (l : List String) (k : String) : List String :=
  l.filter (fun x => x ≠ k)

/-- One engine call, as issued through the Docker client boundary. -/
inductive ECall
  | imagesGet (tag : String)
  | imagesBuild (dockerfile tag : String)
  | imageExport (tag : String)
  | imagesLoad (file : String)
  | imagesRemove (tag : String) (force : Bool)
  | containersRun (tag cmd : String)
  | containerProbe (cid : Nat) (cmd : String)
  | attachShell (cid : Nat) (shell : String)
deriving DecidableEq, Repr

/-- The mutable world the manager operates on: the engine image cache
(list of tags), the running containers (id and image tag), the archive
directory, the build-context directory (file names only, where the
transient Dockerfile is written), and the set of host paths that exist
(consulted by `os.path.exists` for dependency files). -/
structure World where
  images : List String
  containers : List (Nat × String)
  nextCid : Nat
  archive : ArchiveDir
  cwd : List String
  host : List String
deriving DecidableEq, Repr

/-! ## Build-manifest generators (kosher_cli/ctr/node.py, ruby.py) -/

/-- Python `os.path.basename`: everything after the last slash. -/
def pyBasename (p : String) : String :=
  (pySplit p '/').getLastD ""

inductive GenResult
  | ok (lines : List String)
  | fileNotFound
deriving DecidableEq, Repr

/-- NodeEnvironmentManager._generate_dockerfile
(src/kosher_cli/ctr/node.py:71-92). The guard `if requirements:` is
Python truthiness, so `some ""` behaves like `none`; a supplied
non-empty path that does not exist raises `FileNotFoundError`. -/
def nodeGenerateDockerfile (containerDir version : String)
    (requirements : Option String) (host : List String) : GenResult :=
  let base := ["FROM node:" ++ version ++ "-slim",
               "WORKDIR " ++ containerDir,
               "RUN npm install -g npm@latest"]
  match requirements with
  | none => .ok base
  | some r =>
      if r = "" then .ok base
      else if r ∈ host then
        .ok (base ++ ["COPY " ++ pyBasename r ++ " .",
                      "RUN npm install",
                      "ENV PATH=$PATH:./node_modules/.bin"])
      else .fileNotFound

/-- RubyEnvironmentManager._generate_dockerfile
(src/kosher_cli/ctr/ruby.py:71-88). -/
def rubyGenerateDockerfile (containerDir version : String)
    (requirements : Option String) (host : List String) : GenResult :=
  let base := ["FROM ruby:" ++ version ++ "-slim",
               "WORKDIR " ++ containerDir,
               "RUN apt-get update && apt-get install -y build-essential libpq-dev",
               "RUN gem install bundler"]
  match requirements with
  | none => .ok base
  | some r =>
      if r = "" then .ok base
      else if r ∈ host then
        .ok (base ++ ["COPY " ++ r ++ " ./Gemfile",
                      "RUN bundle install"])
      else .fileNotFound

/-! ## Image persistence (EnvironmentManager._save_image, container.py:32-44) -/

/-- Behaviour of one engine image-export stream: `chunks` are the byte
chunks the generator yields before it either finishes (`ok = true`) or
raises a `DockerException` (`ok = false`). -/
structure SaveBehavior where
  chunks : List Nat
  ok : Bool
deriving DecidableEq, Repr

/-- EnvironmentManager._save_image (container.py:32-44): look the image
up in the engine cache (a miss raises, caught, returns failure without
touching the file); otherwise `open(image_path, 'wb')` and write each
yielded chunk directly to the archive path. If the stream raises midway
the partially written file stays at the archive path — there is no
temporary file and no rename. -/
def saveImage (sb : SaveBehavior) (w : World) (lang imageName name version : String) :
    Bool × World × List ECall :=
  let path := archiveName lang name version
  if imageName ∈ w.images then
    (sb.ok, { w with archive := fsWrite w.archive path sb.chunks },
     [.imagesGet imageName, .imageExport imageName])
  else
    (false, w, [.imagesGet imageName])

/-! ## Environment creation (NodeEnvironmentManager.create_environment,
src/kosher_cli/ctr/node.py:21-69) -/

structure CreateBehavior where
  buildOk : Bool
  save : SaveBehavior
deriving DecidableEq, Repr

/-- How one call to create_environment can end: `valueError` for an
empty name or version (raised before the try block, so the finally
clause does not run); `conflict` for the cached-image guard returning
False; `manifestError` for the `FileNotFoundError` of the generator
propagating (it is not a `DockerException`, so no except clause catches
it); `engineError` for a failed engine build; `saveFailed` when
`_save_image` returns False; `created` for the successful return True. -/
inductive CreateResult
  | valueError | conflict | manifestError | engineError | saveFailed | created
deriving DecidableEq, Repr

/-- NodeEnvironmentManager.create_environment (node.py:21-69). The only
pre-check is `images.get` against the engine cache; the archive path is
never consulted. On every path through the try block the finally clause
unlinks the Dockerfile with `missing_ok=True`. A successful engine
build tags the image into the engine cache, and no path removes it
again. -/
def createEnvironment (cb : CreateBehavior) (w : World)
    (containerDir name version : String) (requirements : Option String) :
    CreateResult × World × List ECall :=
  if name = "" ∨ version = "" then (.valueError, w, [])
  else
    let tag := imageTag "node" name version
    let dfile := dockerfileName "node" name
    if tag ∈ w.images then
      (.conflict, { w with cwd := removeName w.cwd dfile }, [.imagesGet tag])
    else
      match nodeGenerateDockerfile containerDir version requirements w.host with
      | .fileNotFound =>
          (.manifestError, { w with cwd := removeName w.cwd dfile }, [.imagesGet tag])
      | .ok _lines =>
          let w1 := { w with cwd := insertName w.cwd dfile }
          if cb.buildOk then
            let w2 := { w1 with images := tag :: w1.images }
            let (saved, w3, st) := saveImage cb.save w2 "node" tag name version
            let wf := { w3 with cwd := removeName w3.cwd dfile }
            ((if saved then .created else .saveFailed), wf,
             [.imagesGet tag, .imagesBuild dfile tag] ++ st)
          else
            (.engineError, { w1 with cwd := removeName w1.cwd dfile },
             [.imagesGet tag, .imagesBuild dfile tag])

/-! ## Activation (EnvironmentManager.activate_environment,
container.py:84-152) -/

structure ActivateBehavior where
  loadOk : Bool
  runOk : Bool
  hasBash : Bool
  interruptedAttach : Bool
deriving DecidableEq, Repr

inductive ActivateResult
  | valueError | notFound | loadFailed | engineError | interrupted | ok
deriving DecidableEq, Repr

/-- Docker `images.remove(tag)` without force, with the exception
swallowed (`try ... except DockerException: pass`): the removal raises
when the tag is absent from the cache or when a container is using the
image, and succeeds otherwise. -/
def imagesRemoveSwallow (w : World) (tag : String) : World × List ECall :=
  if tag ∈ w.images then
    if w.containers.any (fun c => c.2 == tag) then
      (w, [.imagesRemove tag false])
    else
      ({ w with images := w.images.filter (fun x => x ≠ tag) },
       [.imagesRemove tag false])
  else (w, [.imagesRemove tag false])

/-- EnvironmentManager.activate_environment (container.py:84-152).
Empty name or language raise before anything else. The archive lookup
is the glob `f"{lang}-{name}-*.tar"`; an empty result returns False
with no engine call. The version is `env_files[0].stem.split('-')[-1]`.
A cache miss falls back to `_load_image`; a load failure returns before
the second try block, so no cleanup runs. The container is started with
command `tail -f /dev/null` and `remove=True`, the shell probe picks
`/bin/bash` or `/bin/sh`, and the attach either returns normally or is
interrupted. The finally clause only calls `images.remove` (swallowing
errors); no call ever stops or removes the container. -/
def activateEnvironment (ab : ActivateBehavior) (w : World) (name lang : String) :
    ActivateResult × World × List ECall :=
  if name = "" ∨ lang = "" then (.valueError, w, [])
  else
    match (w.archive.filter (fun p => globTar lang name p.1)) with
    | [] => (.notFound, w, [])
    | f :: _ =>
        let version := (pySplit (tarStem f.1) '-').getLastD ""
        let tag := imageTag lang name version
        let loadPath := archiveName lang name version
        let step1 : Bool × World × List ECall :=
          if tag ∈ w.images then (true, w, [.imagesGet tag])
          else if (fsFind w.archive loadPath).isSome then
            if ab.loadOk then
              (true, { w with images := tag :: w.images },
               [.imagesGet tag, .imagesLoad loadPath])
            else (false, w, [.imagesGet tag, .imagesLoad loadPath])
          else (false, w, [.imagesGet tag])
        match step1 with
        | (false, w1, t1) => (.loadFailed, w1, t1)
        | (true, w1, t1) =>
            if ab.runOk then
              let cid := w1.nextCid
              let w2 := { w1 with containers := (cid, tag) :: w1.containers,
                                  nextCid := cid + 1 }
              let shell := if ab.hasBash then "/bin/bash" else "/bin/sh"
              let t2 := [ECall.containersRun tag "tail -f /dev/null",
                         ECall.containerProbe cid "test -x /bin/bash",
                         ECall.attachShell cid shell]
              let (w3, t3) := imagesRemoveSwallow w2 tag
              ((if ab.interruptedAttach then .interrupted else .ok), w3,
               t1 ++ t2 ++ t3)
            else
              let (w3, t3) := imagesRemoveSwallow w1 tag
              (.engineError, w3,
               t1 ++ [ECall.containersRun tag "tail -f /dev/null"] ++ t3)

/-! ## Deletion (EnvironmentManager.delete_environment, container.py:180-213) -/

inductive DeleteResult
  | valueError | notFound | engineFailed | deleted
deriving DecidableEq, Repr

/-- EnvironmentManager.delete_environment (container.py:180-213): glob
for `f"{lang}-{name}-*.tar"`, fail NotFound when nothing matches,
unlink the first match, then `images.remove(tag, force=True)`. The
image removal raises when the tag is absent (force does not suppress
ImageNotFound) or when a running container uses the image; the
exception is caught and the method returns False — after the archive
file has already been unlinked. -/
def deleteEnvironment (w : World) (name lang : String) :
    DeleteResult × World × List ECall :=
  if name = "" ∨ lang = "" then (.valueError, w, [])
  else
    match w.archive.filter (fun p => globTar lang name p.1) with
    | [] => (.notFound, w, [])
    | f :: _ =>
        let version := (pySplit (tarStem f.1) '-').getLastD ""
        let tag := imageTag lang name version
        let w1 := { w with archive := fsErase w.archive f.1 }
        if tag ∈ w1.images then
          if w1.containers.any (fun c => c.2 == tag) then
            (.engineFailed, w1, [.imagesRemove tag true])
          else
            (.deleted, { w1 with images := w1.images.filter (fun x => x ≠ tag) },
             [.imagesRemove tag true])
        else (.engineFailed, w1, [.imagesRemove tag true])

/-! ## The src/ctr tree: attribute names
(src/ctr/container.py:15-26 and src/ctr/python.py) -/

/-- Instance attributes assigned by EnvironmentManager.__init__ in
src/ctr/container.py:20-26. -/
def ctrBaseInstanceAttrs : List String :=
  ["lang", "base_dir", "container_dir", "image_prefix", "client", "console"]

/-- Methods defined on the base class EnvironmentManager in
src/ctr/container.py. -/
def ctrBaseMethodAttrs : List String :=
  ["get_image_path", "save_image", "load_image", "create_environment",
   "build_source", "run_code", "activate_environment", "list_environments",
   "delete_environment"]

/-- Attributes resolvable on a PythonEnvironmentManager instance from
src/ctr: everything from the base, plus the methods the subclass itself
defines, plus `_lang`, which the subclass __init__ assigns directly
(src/ctr/python.py:19). -/
def ctrPyAttrs : List String :=
  ctrBaseInstanceAttrs ++ ctrBaseMethodAttrs ++ ["_lang", "_generate_dockerfile"]

def ctrHasAttr (a : String) : Bool := ctrPyAttrs.contains a

/-- Outcome of running a src/ctr PythonEnvironmentManager method:
either the input validation raises ValueError, or the first `self.X`
lookup for an undefined attribute raises AttributeError. AttributeError
is neither a DockerException nor suppressed by a finally clause, and in
build_source and run_code the `except Exception` handler itself starts
with another `self._console` access, so the AttributeError always
escapes the method. -/
inductive CtrPyResult
  | valueError
  | attrError (attr : String)
  | completed
deriving DecidableEq, Repr

/-- PythonEnvironmentManager.create_environment (src/ctr/python.py:21-69),
as the sequence of attribute lookups it performs: the name and version
check, then `self.image_prefix` and `self._lang` (line 32), then
`self._client` (line 38). The `_client` lookup fails, so the body after
it is unreachable. -/
def ctrPyCreateEnvironment (name version : String) (requirements : Option String) :
    CtrPyResult :=
  if name = "" ∨ version = "" then .valueError
  else if ¬ ctrHasAttr "image_prefix" then .attrError "image_prefix"
  else if ¬ ctrHasAttr "_lang" then .attrError "_lang"
  else if ¬ ctrHasAttr "_client" then .attrError "_client"
  else .completed

/-- PythonEnvironmentManager.build_source (src/ctr/python.py:89-138):
`self.image_prefix` and `self._lang` at line 91, then whichever branch
of the `os.path.isdir` test runs next reaches `self._console`
(line 96 or line 100). -/
def ctrPyBuildSource (sourceDirIsDir : Bool) : CtrPyResult :=
  if ¬ ctrHasAttr "image_prefix" then .attrError "image_prefix"
  else if ¬ ctrHasAttr "_lang" then .attrError "_lang"
  else if sourceDirIsDir then
    if ¬ ctrHasAttr "_console" then .attrError "_console" else .completed
  else
    if ¬ ctrHasAttr "_console" then .attrError "_console" else .completed

/-- PythonEnvironmentManager.run_code (src/ctr/python.py:140-173):
`self.image_prefix` and `self._lang` at line 142, then `self._console`
at line 147. -/
def ctrPyRunCode : CtrPyResult :=
  if ¬ ctrHasAttr "image_prefix" then .attrError "image_prefix"
  else if ¬ ctrHasAttr "_lang" then .attrError "_lang"
  else if ¬ ctrHasAttr "_console" then .attrError "_console"
  else .completed

/-! ## Helper lemmas -/

theorem removeName_not_mem (l : List String) (k : String) :
    k ∉ removeName l k := by
  simp [removeName]

theorem removeName_of_not_mem {l : List String} {k : String} (h : k ∉ l) :
    removeName l k = l := by
  induction l with
  | nil => rfl
  | cons a l ih =>
      simp only [List.mem_cons, not_or] at h
      have hak : ¬(a = k) := fun he => h.1 he.symm
      have ih2 := ih h.2
      simp only [removeName] at ih2 ⊢
      simp [List.filter_cons, hak, ih2]
      intro b hb hbk
      exact h.2 (hbk ▸ hb)

theorem fsFind_fsWrite (fs : ArchiveDir) (k : String) (v : List Nat) :
    fsFind (fsWrite fs k v) k = some v := by
  induction fs with
  | nil => simp [fsWrite, fsFind, List.find?]
  | cons p fs ih =>
      by_cases hp : p.1 = k
      · simp [fsWrite, hp, fsFind, List.find?]
      · simpa [fsWrite, hp, fsFind, List.find?_cons, hp] using ih

theorem fsWrite_count {fs : ArchiveDir} (k : String) (v : List Nat)
    (h : (fs.map Prod.fst).Nodup) :
    ((fsWrite fs k v).filter (fun p => p.1 = k)).length = 1 := by
  induction fs with
  | nil => simp [fsWrite]
  | cons p fs ih =>
      simp only [List.map_cons, List.nodup_cons] at h
      by_cases hp : p.1 = k
      · have hnone : fs.filter (fun p => p.1 = k) = [] := by
          rw [List.filter_eq_nil_iff]
          intro q hq
          simp only [decide_eq_true_eq]
          intro hk
          have hmem : p.1 ∈ List.map Prod.fst fs := by
            rw [hp, ← hk]
            exact List.mem_map_of_mem Prod.fst hq
          exact h.1 hmem
        simp [fsWrite, hp, List.filter_cons, hnone]
      · simp [fsWrite, hp, List.filter_cons, ih h.2]

theorem fsErase_not_mem (fs : ArchiveDir) (k : String) :
    k ∉ (fsErase fs k).map Prod.fst := by
  simp only [fsErase, List.mem_map, List.mem_filter]
  rintro ⟨q, ⟨_, hq⟩, hk⟩
  simp only [decide_eq_true_eq] at hq
  exact hq hk

theorem ne_of_head_ne {s t : String} (h : s.data.head? ≠ t.data.head?) :
    s ≠ t :=
  fun he => h (congrArg (fun q : String => q.data.head?) he)

/-! ## Round-trip lemmas for the file-name identity encoding -/

theorem tarStem_mk (core : List Char) :
    tarStem (String.mk (core ++ tarExt)) = String.mk core := by
  have hlen : (core ++ tarExt).length - 4 = core.length := by
    simp [tarExt]
  simp only [tarStem, hlen]
  rw [List.take_left]

theorem pySplit_mk (core : List Char) (c : Char) :
    pySplit (String.mk core) c = (splitChar c core).map String.mk := rfl

theorem parseStem_archiveName (lang name version : String)
    (hl : ('-' : Char) ∉ lang.data) (hv : ('-' : Char) ∉ version.data) :
    parseStem (tarStem (archiveName lang name version)) = some (lang, name, version) := by
  have hcore : (archiveName lang name version).data
      = (lang.data ++ '-' :: (name.data ++ '-' :: version.data)) ++ tarExt := by
    simp only [archiveName, strData_append, List.append_assoc]
    simp [tarExt]
  have hstem : tarStem (archiveName lang name version)
      = String.mk (lang.data ++ '-' :: (name.data ++ '-' :: version.data)) := by
    have harc : archiveName lang name version
        = String.mk ((lang.data ++ '-' :: (name.data ++ '-' :: version.data)) ++ tarExt) :=
      String.ext hcore
    rw [harc, tarStem_mk]
  rw [hstem]
  have hne : splitChar '-' name.data ≠ [] := splitChar_ne_nil '-' name.data
  have hlen1 : 1 ≤ (splitChar '-' name.data).length := List.length_pos.mpr hne
  have hsplit : splitChar '-' (lang.data ++ '-' :: (name.data ++ '-' :: version.data))
      = lang.data :: (splitChar '-' name.data ++ [version.data]) := by
    rw [splitChar_append_cons, splitChar_append_cons,
        splitChar_of_not_mem hl, splitChar_of_not_mem hv]
    rfl
  simp only [parseStem, pySplit_mk, hsplit, List.map_cons, List.map_append,
    List.length_cons, List.length_append, List.length_map, List.map_nil]
  rw [if_pos (by simp; omega)]
  refine congrArg some ?_
  refine Prod.ext ?_ (Prod.ext ?_ ?_)
  · simp [strMk_data]
  · show pyJoin '-' ((List.map String.mk (splitChar '-' name.data)
        ++ [String.mk version.data]).dropLast) = name
    rw [List.dropLast_concat]
    show String.mk (joinChar '-'
        ((List.map String.mk (splitChar '-' name.data)).map String.data)) = name
    rw [List.map_map]
    have hid : (String.data ∘ String.mk) = id := by
      funext l
      rfl
    rw [hid, List.map_id, joinChar_splitChar]
  · show (String.mk lang.data :: (List.map String.mk (splitChar '-' name.data)
        ++ [String.mk version.data])).getLastD "" = version
    rw [show (String.mk lang.data :: (List.map String.mk (splitChar '-' name.data)
        ++ [String.mk version.data]))
        = (String.mk lang.data :: List.map String.mk (splitChar '-' name.data))
            ++ [String.mk version.data] from rfl]
    rw [List.getLastD_concat]

theorem append1_ne {a b : String} {ca cb : Char} {ra rb : List Char}
    (ha : a.data = ca :: ra) (hb : b.data = cb :: rb) (hc : ca ≠ cb) (s : String) :
    a ≠ b ++ s := by
  apply ne_of_head_ne
  rw [ha, strData_append, hb]
  simpa using hc

theorem append2_ne {a b : String} {ca cb : Char} {ra rb : List Char}
    (ha : a.data = ca :: ra) (hb : b.data = cb :: rb) (hc : ca ≠ cb) (s t : String) :
    a ≠ (b ++ s) ++ t := by
  apply ne_of_head_ne
  rw [ha, strData_append, strData_append, hb]
  simpa using hc

/-! ## Claim theorems -/

/-- C9, counterexample: the claim asserts the filename round-trip for
every identity with non-empty fields, but an identity whose version
contains a hyphen is parsed back differently — the archive of
(node, a, 1-2) is listed as the identity (node, a-1, 2). -/
theorem claim9_roundtrip_cex :
    parseStem (tarStem (archiveName "node" "a" "1-2")) = some ("node", "a-1", "2") ∧
    parseStem (tarStem (archiveName "node" "a" "1-2")) ≠ some ("node", "a", "1-2") := by
  constructor
  · decide
  · decide

/-- C9, amended: for identities with non-empty fields whose language and
version contain no hyphen, parsing the archive file name produced by
`_get_image_path` with the listing rule of `list_environments` (first
hyphen segment is the language, last is the version, the joined middle
segments are the name) recovers exactly the original identity; the name
itself may contain hyphens. -/
theorem claim9_roundtrip (lang name version : String)
    (hlang : lang ≠ "") (hname : name ≠ "") (hversion : version ≠ "")
    (hl : ('-' : Char) ∉ lang.data) (hv : ('-' : Char) ∉ version.data) :
    parseStem (tarStem (archiveName lang name version)) = some (lang, name, version) :=
  parseStem_archiveName lang name version hl hv

/-- C9, witness: the round-trip at a concrete identity with a
hyphenated name. -/
theorem claim9_roundtrip_wit :
    parseStem (tarStem (archiveName "node" "my-app" "3.10"))
      = some ("node", "my-app", "3.10") :=
  claim9_roundtrip "node" "my-app" "3.10" (by decide) (by decide) (by decide)
    (by decide) (by decide)

/-- C8: the generated manifest always contains the base-image directive
`runtime:version-slim`, the working-directory directive, and the
package-manager bootstrap step; and it contains the copy-into-workdir
plus dependency-install steps precisely when a dependency file was
supplied and exists, the generator raising FileNotFoundError when the
supplied file is absent. Stated for both the Node and the Ruby
generator; `req ≠ some ""` excludes the degenerate empty path, which
Python truthiness treats as not supplied. -/
theorem claim8_generate_dockerfile (containerDir version : String)
    (req : Option String) (host : List String) (hreq : req ≠ some "") :
    (∀ m, nodeGenerateDockerfile containerDir version req host = .ok m →
        ("FROM node:" ++ version ++ "-slim") ∈ m ∧
        ("WORKDIR " ++ containerDir) ∈ m ∧
        "RUN npm install -g npm@latest" ∈ m ∧
        (((∃ line ∈ m, ("COPY " : String).data.isPrefixOf line.data) ∧
            "RUN npm install" ∈ m) ↔ ∃ r, req = some r ∧ r ∈ host)) ∧
    (nodeGenerateDockerfile containerDir version req host = .fileNotFound ↔
        ∃ r, req = some r ∧ r ∉ host) ∧
    (∀ m, rubyGenerateDockerfile containerDir version req host = .ok m →
        ("FROM ruby:" ++ version ++ "-slim") ∈ m ∧
        ("WORKDIR " ++ containerDir) ∈ m ∧
        "RUN gem install bundler" ∈ m ∧
        (((∃ line ∈ m, ("COPY " : String).data.isPrefixOf line.data) ∧
            "RUN bundle install" ∈ m) ↔ ∃ r, req = some r ∧ r ∈ host)) ∧
    (rubyGenerateDockerfile containerDir version req host = .fileNotFound ↔
        ∃ r, req = some r ∧ r ∉ host) := by
  rcases req with _ | r
  · refine ⟨?_, by simp [nodeGenerateDockerfile], ?_, by simp [rubyGenerateDockerfile]⟩
    · intro m hm
      simp only [nodeGenerateDockerfile] at hm
      cases hm
      refine ⟨by simp, by simp, by simp, ?_⟩
      constructor
      · rintro ⟨-, hinst⟩
        exfalso
        simp only [List.mem_cons, List.not_mem_nil, or_false] at hinst
        rcases hinst with h | h | h
        · exact append2_ne rfl rfl (by decide) version "-slim" h
        · exact append1_ne rfl rfl (by decide) containerDir h
        · exact absurd h (by decide)
      · rintro ⟨r, hr, -⟩
        cases hr
    · intro m hm
      simp only [rubyGenerateDockerfile] at hm
      cases hm
      refine ⟨by simp, by simp, by simp, ?_⟩
      constructor
      · rintro ⟨-, hinst⟩
        exfalso
        simp only [List.mem_cons, List.not_mem_nil, or_false] at hinst
        rcases hinst with h | h | h | h
        · exact append2_ne rfl rfl (by decide) version "-slim" h
        · exact append1_ne rfl rfl (by decide) containerDir h
        · exact absurd h (by decide)
        · exact absurd h (by decide)
      · rintro ⟨r, hr, -⟩
        cases hr
  · have hr0 : r ≠ "" := fun h => hreq (by rw [h])
    by_cases hmem : r ∈ host
    · refine ⟨?_, ?_, ?_, ?_⟩
      · intro m hm
        simp only [nodeGenerateDockerfile, if_neg hr0, if_pos hmem] at hm
        cases hm
        refine ⟨by simp, by simp, by simp, ?_⟩
        refine iff_of_true ⟨⟨"COPY " ++ pyBasename r ++ " .", by simp, ?_⟩, by simp⟩
          ⟨r, rfl, hmem⟩
        rw [List.isPrefixOf_iff_prefix]
        exact ⟨(pyBasename r ++ " .").data, by simp [strData_append]⟩
      · simp only [nodeGenerateDockerfile, if_neg hr0, if_pos hmem]
        constructor
        · intro h
          cases h
        · rintro ⟨r2, hr2, hnm⟩
          cases hr2
          exact absurd hmem hnm
      · intro m hm
        simp only [rubyGenerateDockerfile, if_neg hr0, if_pos hmem] at hm
        cases hm
        refine ⟨by simp, by simp, by simp, ?_⟩
        refine iff_of_true ⟨⟨"COPY " ++ r ++ " ./Gemfile", by simp, ?_⟩, by simp⟩
          ⟨r, rfl, hmem⟩
        rw [List.isPrefixOf_iff_prefix]
        exact ⟨(r ++ " ./Gemfile").data, by simp [strData_append]⟩
      · simp only [rubyGenerateDockerfile, if_neg hr0, if_pos hmem]
        constructor
        · intro h
          cases h
        · rintro ⟨r2, hr2, hnm⟩
          cases hr2
          exact absurd hmem hnm
    · refine ⟨?_, ?_, ?_, ?_⟩
      · intro m hm
        simp only [nodeGenerateDockerfile, if_neg hr0, if_neg hmem] at hm
        cases hm
      · simp only [nodeGenerateDockerfile, if_neg hr0, if_neg hmem]
        exact iff_of_true trivial ⟨r, rfl, hmem⟩
      · intro m hm
        simp only [rubyGenerateDockerfile, if_neg hr0, if_neg hmem] at hm
        cases hm
      · simp only [rubyGenerateDockerfile, if_neg hr0, if_neg hmem]
        exact iff_of_true trivial ⟨r, rfl, hmem⟩

/-- C8, witness: at a concrete supplied-but-absent dependency path the
Node generator reports the file-not-found failure. -/
theorem claim8_generate_dockerfile_wit :
    nodeGenerateDockerfile "/app" "20" (some "package.json") [] = .fileNotFound :=
  (claim8_generate_dockerfile "/app" "20" (some "package.json") []
    (by decide)).2.1.mpr ⟨"package.json", rfl, by decide⟩

/-- Characterization of the conflict path of create: with the tag
already cached, the call returns the conflict, touching only the
build-context directory through the unconditional finally unlink. -/
theorem createEnvironment_conflict (cb : CreateBehavior) (w : World)
    (containerDir name version : String) (req : Option String)
    (hn : name ≠ "") (hv : version ≠ "")
    (htag : imageTag "node" name version ∈ w.images) :
    createEnvironment cb w containerDir name version req
      = (.conflict,
         { w with cwd := removeName w.cwd (dockerfileName "node" name) },
         [.imagesGet (imageTag "node" name version)]) := by
  have hnv : ¬(name = "" ∨ version = "") := by simp [hn, hv]
  simp only [createEnvironment, if_neg hnv, if_pos htag]

/-- C7: when the supplied dependency-file path does not exist on disk,
create issues no engine build call (its whole trace is the single cache
lookup), leaves no Dockerfile in the build context, leaves the archive
directory and the image cache untouched, and — whenever the conflict
guard does not fire first — fails with the ManifestError
(FileNotFoundError) of the generator. -/
theorem claim7_missing_dependency_file (cb : CreateBehavior) (w : World)
    (containerDir name version r : String) (hn : name ≠ "") (hv : version ≠ "")
    (hr : r ≠ "") (hmiss : r ∉ w.host) :
    (createEnvironment cb w containerDir name version (some r)).2.2
        = [ECall.imagesGet (imageTag "node" name version)] ∧
    dockerfileName "node" name
        ∉ (createEnvironment cb w containerDir name version (some r)).2.1.cwd ∧
    (createEnvironment cb w containerDir name version (some r)).2.1.archive
        = w.archive ∧
    (createEnvironment cb w containerDir name version (some r)).2.1.images
        = w.images ∧
    (imageTag "node" name version ∉ w.images →
        (createEnvironment cb w containerDir name version (some r)).1
          = .manifestError) := by
  have hnv : ¬(name = "" ∨ version = "") := by simp [hn, hv]
  by_cases htag : imageTag "node" name version ∈ w.images
  · rw [createEnvironment_conflict cb w containerDir name version (some r)
      hn hv htag]
    exact ⟨rfl, removeName_not_mem _ _, rfl, rfl, fun hc => absurd htag hc⟩
  · have hgen : nodeGenerateDockerfile containerDir version (some r) w.host
        = .fileNotFound := by
      simp [nodeGenerateDockerfile, hr, hmiss]
    have h3 : createEnvironment cb w containerDir name version (some r)
        = (.manifestError,
           { w with cwd := removeName w.cwd (dockerfileName "node" name) },
           [.imagesGet (imageTag "node" name version)]) := by
      simp only [createEnvironment, if_neg hnv, if_neg htag, hgen]
    rw [h3]
    exact ⟨rfl, removeName_not_mem _ _, rfl, rfl, fun _ => rfl⟩

/-- C7, witness: concrete instantiation with an absent dependency path
and an empty engine cache. -/
theorem claim7_missing_dependency_file_wit :
    (createEnvironment ⟨true, ⟨[1], true⟩⟩ ⟨[], [], 0, [], [], []⟩
        "/app" "a" "1" (some "reqs.json")).1 = .manifestError :=
  (claim7_missing_dependency_file ⟨true, ⟨[1], true⟩⟩ ⟨[], [], 0, [], [], []⟩
      "/app" "a" "1" "reqs.json" (by decide) (by decide) (by decide)
      (by decide)).2.2.2.2 (by decide)

/-- Characterization of a successful create call, shared by the C1 and
C2 developments: a call that returns `created` went through the
conflict guard (so the tag was not cached), built, and saved, and its
final world is the input world with the tag pushed onto the image
cache, the export chunks written at the archive path, and the
Dockerfile removed from the build context. -/
theorem createEnvironment_created (cb : CreateBehavior) (w : World)
    (containerDir name version : String) (req : Option String)
    (hn : name ≠ "") (hv : version ≠ "")
    (hres : (createEnvironment cb w containerDir name version req).1 = .created) :
    (createEnvironment cb w containerDir name version req).2.1
      = { images := imageTag "node" name version :: w.images,
          containers := w.containers,
          nextCid := w.nextCid,
          archive := fsWrite w.archive (archiveName "node" name version)
            cb.save.chunks,
          cwd := removeName (insertName w.cwd (dockerfileName "node" name))
            (dockerfileName "node" name),
          host := w.host } := by
  have hnv : ¬(name = "" ∨ version = "") := by simp [hn, hv]
  by_cases htag : imageTag "node" name version ∈ w.images
  · exfalso
    simp only [createEnvironment, if_neg hnv, if_pos htag] at hres
    exact absurd hres (by decide)
  · cases hgen : nodeGenerateDockerfile containerDir version req w.host with
    | fileNotFound =>
        exfalso
        simp only [createEnvironment, if_neg hnv, if_neg htag, hgen] at hres
        exact absurd hres (by decide)
    | ok lines =>
        cases hbuild : cb.buildOk with
        | false =>
            simp only [createEnvironment, if_neg hnv, if_neg htag, hgen,
              hbuild] at hres
            simp at hres
        | true =>
            simp only [createEnvironment, if_neg hnv, if_neg htag, hgen,
              hbuild, saveImage] at hres ⊢
            simp only [List.mem_cons_self, if_true, reduceIte] at hres ⊢

/-- C1, counterexample: the claim asserts that create rejects with a
conflict whenever the archive for the identity already exists; but with
the archive present and the image absent from the engine cache, create
does not reject — it rebuilds and silently overwrites the existing
archive (the bytes at the archive path change), because the only
pre-check in the code is the engine-cache lookup. -/
theorem claim1_conflict_guard_cex :
    fsFind (⟨[], [], 0, [("node-a-1.tar", [9, 9])], [], []⟩ :
        World).archive (archiveName "node" "a" "1") = some [9, 9] ∧
    (createEnvironment ⟨true, ⟨[1], true⟩⟩
        ⟨[], [], 0, [("node-a-1.tar", [9, 9])], [], []⟩ "/app" "a" "1" none).1
      = .created ∧
    (createEnvironment ⟨true, ⟨[1], true⟩⟩
        ⟨[], [], 0, [("node-a-1.tar", [9, 9])], [], []⟩ "/app" "a" "1" none).1
      ≠ .conflict ∧
    fsFind (createEnvironment ⟨true, ⟨[1], true⟩⟩
        ⟨[], [], 0, [("node-a-1.tar", [9, 9])], [], []⟩ "/app" "a" "1"
        none).2.1.archive (archiveName "node" "a" "1") = some [1] := by
  refine ⟨by decide, by decide, by decide, by decide⟩

/-- C1, amended: create has no archive pre-check — its only conflict
guard is the engine-cache lookup. Nevertheless, calling create twice
without an intervening delete (within one engine state) makes the
second call report the conflict before any mutation and leaves exactly
one archive for the identity, because a successful first create leaves
the built image in the engine cache and that cached image trips the
guard of the second call. -/
theorem claim1_second_create_conflict (cb1 cb2 : CreateBehavior) (w : World)
    (cdir1 cdir2 name version : String) (req1 req2 : Option String)
    (hn : name ≠ "") (hv : version ≠ "")
    (hnodup : (w.archive.map Prod.fst).Nodup)
    (hfirst : (createEnvironment cb1 w cdir1 name version req1).1 = .created) :
    (createEnvironment cb2
        (createEnvironment cb1 w cdir1 name version req1).2.1
        cdir2 name version req2).1 = .conflict ∧
    (createEnvironment cb2
        (createEnvironment cb1 w cdir1 name version req1).2.1
        cdir2 name version req2).2.1
      = (createEnvironment cb1 w cdir1 name version req1).2.1 ∧
    (createEnvironment cb2
        (createEnvironment cb1 w cdir1 name version req1).2.1
        cdir2 name version req2).2.2
      = [ECall.imagesGet (imageTag "node" name version)] ∧
    (((createEnvironment cb1 w cdir1 name version req1).2.1.archive.filter
        (fun p => p.1 = archiveName "node" name version)).length = 1) := by
  have hw1 := createEnvironment_created cb1 w cdir1 name version req1 hn hv hfirst
  have htag : imageTag "node" name version
      ∈ (createEnvironment cb1 w cdir1 name version req1).2.1.images := by
    rw [hw1]
    exact List.mem_cons_self _ _
  have hcwd : dockerfileName "node" name
      ∉ (createEnvironment cb1 w cdir1 name version req1).2.1.cwd := by
    rw [hw1]
    exact removeName_not_mem _ _
  have h2 := createEnvironment_conflict cb2
    (createEnvironment cb1 w cdir1 name version req1).2.1
    cdir2 name version req2 hn hv htag
  refine ⟨?_, ?_, ?_, ?_⟩
  · rw [h2]
  · rw [h2]
    show { (createEnvironment cb1 w cdir1 name version req1).2.1 with
        cwd := removeName
          ((createEnvironment cb1 w cdir1 name version req1).2.1).cwd
          (dockerfileName "node" name) }
      = (createEnvironment cb1 w cdir1 name version req1).2.1
    rw [removeName_of_not_mem hcwd]
  · rw [h2]
  · rw [hw1]
    exact fsWrite_count _ _ hnodup

/-- C1, witness: two successive create calls on an initially clean
world: the second reports the conflict and one archive remains. -/
theorem claim1_second_create_conflict_wit :
    (createEnvironment ⟨true, ⟨[2], true⟩⟩
        (createEnvironment ⟨true, ⟨[1], true⟩⟩ ⟨[], [], 0, [], [], []⟩
          "/app" "a" "1" none).2.1
        "/app" "a" "1" none).1 = .conflict :=
  (claim1_second_create_conflict ⟨true, ⟨[1], true⟩⟩ ⟨true, ⟨[2], true⟩⟩
      ⟨[], [], 0, [], [], []⟩ "/app" "/app" "a" "1" none none
      (by decide) (by decide) (by decide) (by decide)).1

/-- C2, counterexample: a successful create returns with the built
image still present in the engine cache, and its engine-call trace
contains no image removal — the transient engine-side image is not
discarded before create returns, contradicting the claim. -/
theorem claim2_transient_image_cex :
    (createEnvironment ⟨true, ⟨[1], true⟩⟩ ⟨[], [], 0, [], [], []⟩
        "/app" "a" "1" none).1 = .created ∧
    imageTag "node" "a" "1" ∈ (createEnvironment ⟨true, ⟨[1], true⟩⟩
        ⟨[], [], 0, [], [], []⟩ "/app" "a" "1" none).2.1.images ∧
    (createEnvironment ⟨true, ⟨[1], true⟩⟩ ⟨[], [], 0, [], [], []⟩
        "/app" "a" "1" none).2.2
      = [ECall.imagesGet (imageTag "node" "a" "1"),
         ECall.imagesBuild (dockerfileName "node" "a") (imageTag "node" "a" "1"),
         ECall.imagesGet (imageTag "node" "a" "1"),
         ECall.imageExport (imageTag "node" "a" "1")] := by
  refine ⟨by decide, by decide, by decide⟩

/-- C2, amended: on every create invocation with a valid name and
version, the generated manifest file is removed before the call
returns, but the transient engine-side image is not: create never
issues an image-removal call, and on success both the archive (holding
the exported bytes) and the engine-cache entry survive the call. -/
theorem claim2_manifest_removed_image_kept (cb : CreateBehavior) (w : World)
    (containerDir name version : String) (req : Option String)
    (hn : name ≠ "") (hv : version ≠ "") :
    dockerfileName "node" name
        ∉ (createEnvironment cb w containerDir name version req).2.1.cwd ∧
    (∀ t f, ECall.imagesRemove t f
        ∉ (createEnvironment cb w containerDir name version req).2.2) ∧
    ((createEnvironment cb w containerDir name version req).1 = .created →
        imageTag "node" name version
          ∈ (createEnvironment cb w containerDir name version req).2.1.images ∧
        fsFind (createEnvironment cb w containerDir name version req).2.1.archive
            (archiveName "node" name version) = some cb.save.chunks) := by
  have hnv : ¬(name = "" ∨ version = "") := by simp [hn, hv]
  by_cases htag : imageTag "node" name version ∈ w.images
  · rw [createEnvironment_conflict cb w containerDir name version req hn hv htag]
    refine ⟨removeName_not_mem _ _, by simp, ?_⟩
    intro hres
    simp at hres
  · cases hgen : nodeGenerateDockerfile containerDir version req w.host with
    | fileNotFound =>
        have hM : createEnvironment cb w containerDir name version req
            = (.manifestError,
               { w with cwd := removeName w.cwd (dockerfileName "node" name) },
               [.imagesGet (imageTag "node" name version)]) := by
          simp only [createEnvironment, if_neg hnv, if_neg htag, hgen]
        rw [hM]
        refine ⟨removeName_not_mem _ _, by simp, ?_⟩
        intro hres
        simp at hres
    | ok lines =>
        cases hbuild : cb.buildOk with
        | false =>
            have hE : createEnvironment cb w containerDir name version req
                = (.engineError,
                   { w with cwd := removeName (insertName w.cwd (dockerfileName "node" name)) (dockerfileName "node" name) },
                   [.imagesGet (imageTag "node" name version),
                    .imagesBuild (dockerfileName "node" name)
                      (imageTag "node" name version)]) := by
              simp only [createEnvironment, if_neg hnv, if_neg htag, hgen, hbuild]
              simp
            rw [hE]
            refine ⟨removeName_not_mem _ _, by simp, ?_⟩
            intro hres
            simp at hres
        | true =>
            have hS : createEnvironment cb w containerDir name version req
                = ((if cb.save.ok = true then CreateResult.created
                      else CreateResult.saveFailed),
                   { images := imageTag "node" name version :: w.images,
                     containers := w.containers, nextCid := w.nextCid,
                     archive := fsWrite w.archive
                       (archiveName "node" name version) cb.save.chunks,
                     cwd := removeName (insertName w.cwd (dockerfileName "node" name)) (dockerfileName "node" name),
                     host := w.host },
                   [.imagesGet (imageTag "node" name version),
                    .imagesBuild (dockerfileName "node" name)
                      (imageTag "node" name version),
                    .imagesGet (imageTag "node" name version),
                    .imageExport (imageTag "node" name version)]) := by
              simp only [createEnvironment, if_neg hnv, if_neg htag, hgen,
                hbuild, saveImage]
              simp only [List.mem_cons_self, if_true, reduceIte]
              rfl
            rw [hS]
            refine ⟨removeName_not_mem _ _, by simp, ?_⟩
            intro _
            exact ⟨List.mem_cons_self _ _, fsFind_fsWrite _ _ _⟩

/-- C2, witness: concrete instantiation of the amended statement. -/
theorem claim2_manifest_removed_image_kept_wit :
    imageTag "node" "a" "1" ∈ (createEnvironment ⟨true, ⟨[1], true⟩⟩
        ⟨[], [], 0, [], [], []⟩ "/app" "a" "1" none).2.1.images :=
  ((claim2_manifest_removed_image_kept ⟨true, ⟨[1], true⟩⟩
      ⟨[], [], 0, [], [], []⟩ "/app" "a" "1" none
      (by decide) (by decide)).2.2 (by decide)).1

/-- C4, counterexample: with the engine export stream raising after
yielding one chunk, `_save_image` returns failure but the partially
written file remains at the archive path — there is no temp path and no
atomic rename, contradicting the claim that a failure leaves no partial
archive file. -/
theorem claim4_save_partial_cex :
    (saveImage ⟨[7], false⟩ ⟨["kosher/node-a:1"], [], 0, [], [], []⟩
        "node" "kosher/node-a:1" "a" "1").1 = false ∧
    fsFind (saveImage ⟨[7], false⟩ ⟨["kosher/node-a:1"], [], 0, [], [], []⟩
        "node" "kosher/node-a:1" "a" "1").2.1.archive
        (archiveName "node" "a" "1") = some [7] := by
  exact ⟨by decide, by decide⟩

/-- C4, amended: `_save_image` opens the archive path directly and
streams into it; when the image is in the engine cache the call reports
exactly the stream outcome and the archive path ends up holding exactly
the chunks the stream yielded — on an engine error midway that is a
partial file left at the archive path. -/
theorem claim4_save_direct_write (sb : SaveBehavior) (w : World)
    (lang imageName name version : String) (hmem : imageName ∈ w.images) :
    (saveImage sb w lang imageName name version).1 = sb.ok ∧
    fsFind (saveImage sb w lang imageName name version).2.1.archive
        (archiveName lang name version) = some sb.chunks := by
  have hres : saveImage sb w lang imageName name version
      = (sb.ok, { w with archive := fsWrite w.archive (archiveName lang name version) sb.chunks },
         [.imagesGet imageName, .imageExport imageName]) := by
    simp only [saveImage, if_pos hmem]
  rw [hres]
  exact ⟨rfl, fsFind_fsWrite _ _ _⟩

/-- C4, witness: the amended statement at a concrete failing stream. -/
theorem claim4_save_direct_write_wit :
    fsFind (saveImage ⟨[3, 4], false⟩ ⟨["kosher/ruby-b:2"], [], 0, [], [], []⟩
        "ruby" "kosher/ruby-b:2" "b" "2").2.1.archive
        (archiveName "ruby" "b" "2") = some [3, 4] :=
  (claim4_save_direct_write ⟨[3, 4], false⟩
    ⟨["kosher/ruby-b:2"], [], 0, [], [], []⟩ "ruby" "kosher/ruby-b:2" "b" "2"
    (by decide)).2

/-- C5, counterexample: with the archive present but the image absent
from the engine cache, delete removes the archive and then reports
failure, because `images.remove(force=True)` raises ImageNotFound and
the except clause returns False — the engine-side removal is not
best-effort. -/
theorem claim5_delete_cex :
    (deleteEnvironment ⟨[], [], 0, [("node-a-1.tar", [0])], [], []⟩
        "a" "node").1 = .engineFailed ∧
    (deleteEnvironment ⟨[], [], 0, [("node-a-1.tar", [0])], [], []⟩
        "a" "node").2.1.archive = [] := by
  exact ⟨by decide, by decide⟩

/-- C5, amended: delete fails NotFound exactly when no archive matches
the glob, and otherwise unlinks the first matching archive file; but
the engine-side image removal is fatal rather than best-effort — the
call reports success precisely when the image is in the cache and no
running container uses it, and reports the engine failure otherwise,
even though the archive has already been removed. -/
theorem claim5_delete_behavior (w : World) (name lang : String)
    (hn : name ≠ "") (hl : lang ≠ "") :
    (w.archive.filter (fun p => globTar lang name p.1) = [] →
        (deleteEnvironment w name lang).1 = .notFound ∧
        (deleteEnvironment w name lang).2.1 = w ∧
        (deleteEnvironment w name lang).2.2 = []) ∧
    (∀ f rest, w.archive.filter (fun p => globTar lang name p.1) = f :: rest →
        f.1 ∉ ((deleteEnvironment w name lang).2.1.archive.map Prod.fst) ∧
        ((deleteEnvironment w name lang).1 = .deleted ↔
          imageTag lang name ((pySplit (tarStem f.1) '-').getLastD "") ∈ w.images ∧
          w.containers.any (fun c =>
            c.2 == imageTag lang name ((pySplit (tarStem f.1) '-').getLastD ""))
              = false) ∧
        ((deleteEnvironment w name lang).1 = .deleted ∨
         (deleteEnvironment w name lang).1 = .engineFailed)) := by
  have hnv : ¬(name = "" ∨ lang = "") := by simp [hn, hl]
  constructor
  · intro hfil
    have hres : deleteEnvironment w name lang = (.notFound, w, []) := by
      simp only [deleteEnvironment, if_neg hnv, hfil]
    rw [hres]
    exact ⟨rfl, rfl, rfl⟩
  · intro f rest hfil
    by_cases hmem : imageTag lang name ((pySplit (tarStem f.1) '-').getLastD "")
        ∈ w.images
    · by_cases hcont : w.containers.any (fun c =>
          c.2 == imageTag lang name ((pySplit (tarStem f.1) '-').getLastD ""))
      · have hres : deleteEnvironment w name lang
            = (.engineFailed, { w with archive := fsErase w.archive f.1 },
               [.imagesRemove (imageTag lang name
                  ((pySplit (tarStem f.1) '-').getLastD "")) true]) := by
          simp only [deleteEnvironment, if_neg hnv, hfil, if_pos hmem, if_pos hcont]
        rw [hres]
        refine ⟨fsErase_not_mem _ _, ?_, Or.inr rfl⟩
        constructor
        · intro h
          simp at h
        · rintro ⟨-, hcf⟩
          rw [hcont] at hcf
          exact absurd hcf (by decide)
      · have hres : deleteEnvironment w name lang
            = (.deleted,
               { w with archive := fsErase w.archive f.1, images := w.images.filter (fun x => x ≠ imageTag lang name ((pySplit (tarStem f.1) '-').getLastD "")) },
               [.imagesRemove (imageTag lang name
                  ((pySplit (tarStem f.1) '-').getLastD "")) true]) := by
          simp only [deleteEnvironment, if_neg hnv, hfil, if_pos hmem, if_neg hcont]
        rw [hres]
        refine ⟨fsErase_not_mem _ _, ?_, Or.inl rfl⟩
        exact iff_of_true rfl ⟨hmem, Bool.eq_false_iff.mpr hcont⟩
    · have hres : deleteEnvironment w name lang
          = (.engineFailed, { w with archive := fsErase w.archive f.1 },
             [.imagesRemove (imageTag lang name
                ((pySplit (tarStem f.1) '-').getLastD "")) true]) := by
        simp only [deleteEnvironment, if_neg hnv, hfil, if_neg hmem]
      rw [hres]
      refine ⟨fsErase_not_mem _ _, ?_, Or.inr rfl⟩
      constructor
      · intro h
        simp at h
      · rintro ⟨hm, -⟩
        exact absurd hm hmem

/-- C5, witness: a delete that reports success on a world where the
image is cached and unused, through the amended characterization. -/
theorem claim5_delete_behavior_wit :
    (deleteEnvironment ⟨["kosher/node-c:3"], [], 0, [("node-c-3.tar", [1])],
        [], []⟩ "c" "node").1 = .deleted :=
  (((claim5_delete_behavior
      ⟨["kosher/node-c:3"], [], 0, [("node-c-3.tar", [1])], [], []⟩ "c" "node"
      (by decide) (by decide)).2 ("node-c-3.tar", [1]) []
      (by decide)).2.1).mpr ⟨by decide, by decide⟩

/-- C6: activate reports the NotFound failure exactly when no file in
the archive directory decomposes as `lang-name-v.tar` for some version
string v (the glob semantics: the version is whatever the filename
carries, not supplied by the caller), and on that failure the world is
unchanged and no engine call at all is issued. -/
theorem claim6_activate_not_found (ab : ActivateBehavior) (w : World)
    (name lang : String) (hn : name ≠ "") (hl : lang ≠ "") :
    ((activateEnvironment ab w name lang).1 = .notFound ↔
      ¬ ∃ p ∈ w.archive, ∃ v : String,
          p.1 = lang ++ "-" ++ name ++ "-" ++ v ++ ".tar") ∧
    ((activateEnvironment ab w name lang).1 = .notFound →
      (activateEnvironment ab w name lang).2.1 = w ∧
      (activateEnvironment ab w name lang).2.2 = []) := by
  have hnv : ¬(name = "" ∨ lang = "") := by simp [hn, hl]
  cases hfil : w.archive.filter (fun p => globTar lang name p.1) with
  | nil =>
      have hres : activateEnvironment ab w name lang = (.notFound, w, []) := by
        simp only [activateEnvironment, if_neg hnv, hfil]
      rw [hres]
      constructor
      · refine iff_of_true rfl ?_
        rintro ⟨p, hp, v, hv⟩
        have hglob : globTar lang name p.1 = true :=
          (globTar_iff lang name p.1).mpr ⟨v, hv⟩
        have hpm : p ∈ w.archive.filter (fun p => globTar lang name p.1) :=
          List.mem_filter.mpr ⟨hp, hglob⟩
        rw [hfil] at hpm
        exact absurd hpm (List.not_mem_nil p)
      · intro _
        exact ⟨rfl, rfl⟩
  | cons f rest =>
      have hne : (activateEnvironment ab w name lang).1 ≠ .notFound := by
        simp only [activateEnvironment, if_neg hnv, hfil]
        split
        · simp
        · split
          · split <;> simp
          · simp
      have hex : ∃ p ∈ w.archive, ∃ v : String,
          p.1 = lang ++ "-" ++ name ++ "-" ++ v ++ ".tar" := by
        have hf : f ∈ w.archive.filter (fun p => globTar lang name p.1) := by
          rw [hfil]
          exact List.mem_cons_self _ _
        have hmf := List.mem_filter.mp hf
        obtain ⟨v, hv⟩ := (globTar_iff lang name f.1).mp hmf.2
        exact ⟨f, hmf.1, v, hv⟩
      refine ⟨?_, ?_⟩
      · constructor
        · intro hres
          exact absurd hres hne
        · intro hnone
          exact absurd hex hnone
      · intro hres
        exact absurd hres hne

/-- C6, witness: activate on an empty archive directory reports the
NotFound failure. -/
theorem claim6_activate_not_found_wit :
    (activateEnvironment ⟨true, true, true, false⟩ ⟨[], [], 0, [], [], []⟩
        "a" "node").1 = .notFound :=
  ((claim6_activate_not_found ⟨true, true, true, false⟩ ⟨[], [], 0, [], [], []⟩
      "a" "node" (by decide) (by decide)).1).mpr (by simp)

/-- C3: the cleanup claim fails on the code. At a world holding the
archive and the cached image, an activation session that ends normally
(and likewise one interrupted at the attach) returns with the launched
container still running (no engine call ever stops or removes it — the
`tail -f /dev/null` command never exits, so `remove=True` never fires)
and with the image still in the engine cache, because the finally
clause removal of an image used by a running container raises and is
swallowed. -/
theorem claim3_no_container_cleanup :
    ((activateEnvironment ⟨true, true, true, false⟩
        ⟨["kosher/node-a:1"], [], 0, [("node-a-1.tar", [0])], [], []⟩
        "a" "node").1 = .ok ∧
     (activateEnvironment ⟨true, true, true, false⟩
        ⟨["kosher/node-a:1"], [], 0, [("node-a-1.tar", [0])], [], []⟩
        "a" "node").2.1.containers = [(0, "kosher/node-a:1")] ∧
     "kosher/node-a:1" ∈ (activateEnvironment ⟨true, true, true, false⟩
        ⟨["kosher/node-a:1"], [], 0, [("node-a-1.tar", [0])], [], []⟩
        "a" "node").2.1.images) ∧
    ((activateEnvironment ⟨true, true, true, true⟩
        ⟨["kosher/node-a:1"], [], 0, [("node-a-1.tar", [0])], [], []⟩
        "a" "node").1 = .interrupted ∧
     (activateEnvironment ⟨true, true, true, true⟩
        ⟨["kosher/node-a:1"], [], 0, [("node-a-1.tar", [0])], [], []⟩
        "a" "node").2.1.containers = [(0, "kosher/node-a:1")] ∧
     "kosher/node-a:1" ∈ (activateEnvironment ⟨true, true, true, true⟩
        ⟨["kosher/node-a:1"], [], 0, [("node-a-1.tar", [0])], [], []⟩
        "a" "node").2.1.images) := by
  exact ⟨⟨by decide, by decide, by decide⟩, ⟨by decide, by decide, by decide⟩⟩

/-- C10: in the src/ctr tree, the underscore attributes referenced by
PythonEnvironmentManager are not defined by the base class (which
defines the un-prefixed client, console, container_dir, save_image and
lang), so create_environment (for any non-empty name and version),
build_source and run_code all raise AttributeError at their first
undefined self-attribute access instead of performing the operation. -/
theorem claim10_ctr_python_attrs :
    (∀ name version req, name ≠ "" → version ≠ "" →
        ctrPyCreateEnvironment name version req = .attrError "_client") ∧
    (∀ b, ctrPyBuildSource b = .attrError "_console") ∧
    ctrPyRunCode = .attrError "_console" ∧
    ("_client" ∉ ctrBaseInstanceAttrs ∧ "_client" ∉ ctrBaseMethodAttrs) ∧
    ("_console" ∉ ctrBaseInstanceAttrs ∧ "_console" ∉ ctrBaseMethodAttrs) ∧
    ("_container_dir" ∉ ctrBaseInstanceAttrs ∧
        "_container_dir" ∉ ctrBaseMethodAttrs) ∧
    ("_save_image" ∉ ctrBaseInstanceAttrs ∧
        "_save_image" ∉ ctrBaseMethodAttrs) ∧
    ("_lang" ∉ ctrBaseInstanceAttrs ∧ "_lang" ∉ ctrBaseMethodAttrs) ∧
    "client" ∈ ctrBaseInstanceAttrs ∧ "console" ∈ ctrBaseInstanceAttrs ∧
    "container_dir" ∈ ctrBaseInstanceAttrs ∧
    "save_image" ∈ ctrBaseMethodAttrs ∧ "lang" ∈ ctrBaseInstanceAttrs := by
  refine ⟨?_, by decide, by decide, by decide, by decide, by decide,
    by decide, by decide, by decide, by decide, by decide, by decide,
    by decide⟩
  intro name version req hn hv
  have hnv : ¬(name = "" ∨ version = "") := by simp [hn, hv]
  simp only [ctrPyCreateEnvironment, if_neg hnv]
  decide

/-- C10, witness: the create path at a concrete valid input. -/
theorem claim10_ctr_python_attrs_wit :
    ctrPyCreateEnvironment "a" "1" none = .attrError "_client" :=
  claim10_ctr_python_attrs.1 "a" "1" none (by decide) (by decide)

end Kosher
